import Mathlib

/-!
# Verification of the decapod Python SDK shim

Shallow embedding of `src/sdk/python/decapod_shim.py` and
`src/examples/python_validate_demo.py`.

The shim serializes a JSON request (`json.dumps`), feeds it to an external
`decapod` subprocess, and decodes the subprocess's stdout (`json.loads`).
We embed:

* a `Json` data model mirroring the values Python's `json` module exchanges
  (numbers restricted to integers — no claim involves floats);
* `jsonDumps`, modelling CPython `json.dumps` with its default arguments
  (`ensure_ascii=True`, separators `", "` and `": "`);
* `jsonParse`, modelling CPython `json.loads` on the same fragment
  (integer numbers; lone surrogate escapes are rejected because Lean's
  `Char` holds only Unicode scalar values);
* `str(uuid.uuid4())` as `uuid4`, a pure function of the 128-bit random draw;
* `run_rpc`, `run_validate` and the demo's `main`, with the external
  subprocess modelled as an explicit `SpawnResult` environment parameter.
-/

set_option maxHeartbeats 1000000

namespace Decapod

/-- JSON values as decoded by Python's `json` module. Objects are association
lists standing for Python dicts (distinct keys in every value the shim
builds or the claims mention); numbers are integers — the shim never
produces or consumes floats in any claim under study. -/
inductive Json where
  | null : Json
  | bool (b : Bool) : Json
  | num (n : Int) : Json
  | str (s : String) : Json
  | arr (xs : List Json) : Json
  | obj (fields : List (String × Json)) : Json
  deriving Repr

/-- Field lookup, modelling Python's `dict.get(k)` (`None` when absent or when
the value is not an object). -/
def Json.getField : Json → String → Option Json
  | .obj fs, k => fs.lookup k
  | _, _ => none

/-- Python truthiness (`bool(x)`) of a decoded JSON value: `None`, `False`,
`0`, `""`, `[]` and `{}` are falsy, everything else truthy. -/
def Json.truthy : Json → Bool
  | .null => false
  | .bool b => b
  | .num n => n != 0
  | .str s => s.data != []
  | .arr xs => !xs.isEmpty
  | .obj fs => !fs.isEmpty

/-! ## Serialization: `json.dumps` with default arguments -/

/-- Lowercase hexadecimal digit character for `d < 16`. -/
def hexChar (d : Nat) : Char :=
  if d < 10 then Char.ofNat (48 + d) else Char.ofNat (87 + d)

/-- Four-digit lowercase hex rendering of `n < 0x10000`, as in `"\u%04x"`. -/
def hex4 (n : Nat) : List Char :=
  [hexChar (n / 4096 % 16), hexChar (n / 256 % 16), hexChar (n / 16 % 16), hexChar (n % 16)]

/-- Escape one character the way CPython's `py_encode_basestring_ascii`
(the default `ensure_ascii=True` encoder) does: `"` and `\` and the short
control escapes come from `ESCAPE_DCT`; every other character outside
`0x20..0x7e` becomes `\uXXXX`, with a surrogate pair above `0xffff`. -/
def escapeChar (c : Char) : List Char :=
  if c = '"' then ['\\', '"']
  else if c = '\\' then ['\\', '\\']
  else if c = '\n' then ['\\', 'n']
  else if c = '\r' then ['\\', 'r']
  else if c = '\t' then ['\\', 't']
  else if c = Char.ofNat 8 then ['\\', 'b']
  else if c = Char.ofNat 12 then ['\\', 'f']
  else if 0x20 ≤ c.toNat ∧ c.toNat ≤ 0x7e then [c]
  else if c.toNat < 0x10000 then '\\' :: 'u' :: hex4 c.toNat
  else
    let v := c.toNat - 0x10000
    ('\\' :: 'u' :: hex4 (0xd800 + v / 0x400)) ++ ('\\' :: 'u' :: hex4 (0xdc00 + v % 0x400))

/-- Serialize a string literal: quote, escaped characters, quote. -/
def printString (s : String) : List Char :=
  '"' :: (s.data.map escapeChar).flatten ++ ['"']

/-- Decimal digit characters of `n`, most significant first. -/
def printNat (n : Nat) : List Char :=
  if n = 0 then ['0']
  else ((Nat.digits 10 n).map (fun d => Char.ofNat (48 + d))).reverse

/-- Serialize an integer the way `json.dumps` prints a Python `int`. -/
def printInt : Int → List Char
  | .ofNat n => printNat n
  | .negSucc m => '-' :: printNat (m + 1)

mutual

/-- Serialize a JSON value: CPython `json.dumps` with the default separators
`", "` (between items) and `": "` (after keys). -/
def printJson : Json → List Char
  | .null => "null".data
  | .bool true => "true".data
  | .bool false => "false".data
  | .num n => printInt n
  | .str s => printString s
  | .arr xs => '[' :: printItems xs ++ [']']
  | .obj fs => '{' :: printFields fs ++ ['}']

/-- Array items joined by `", "`. -/
def printItems : List Json → List Char
  | [] => []
  | [x] => printJson x
  | x :: y :: xs => printJson x ++ ',' :: ' ' :: printItems (y :: xs)

/-- Object members `"key": value` joined by `", "`. -/
def printFields : List (String × Json) → List Char
  | [] => []
  | [(k, v)] => printString k ++ ':' :: ' ' :: printJson v
  | (k, v) :: kv :: fs =>
      printString k ++ ':' :: ' ' :: printJson v ++ ',' :: ' ' :: printFields (kv :: fs)

end

/-- `json.dumps` with default arguments, as a Lean string. -/
def jsonDumps (v : Json) : String := ⟨printJson v⟩

/-! ## Parsing: `json.loads` on the integer fragment -/

/-- JSON whitespace (exactly the four characters `json.loads` skips). -/
def jsonWs (c : Char) : Bool :=
  c = ' ' || c = '\t' || c = '\n' || c = '\r'

/-- Skip insignificant whitespace. -/
def skipWs (cs : List Char) : List Char := cs.dropWhile jsonWs

/-- Value of one hexadecimal digit (either case), `none` otherwise. -/
def hexVal (c : Char) : Option Nat :=
  if '0' ≤ c ∧ c ≤ '9' then some (c.toNat - 48)
  else if 'a' ≤ c ∧ c ≤ 'f' then some (c.toNat - 87)
  else if 'A' ≤ c ∧ c ≤ 'F' then some (c.toNat - 55)
  else none

/-- Read exactly four hex digits, returning their value and the tail. -/
def parseHex4 : List Char → Option (Nat × List Char)
  | c1 :: c2 :: c3 :: c4 :: rest => do
    let d1 ← hexVal c1
    let d2 ← hexVal c2
    let d3 ← hexVal c3
    let d4 ← hexVal c4
    pure (((d1 * 16 + d2) * 16 + d3) * 16 + d4, rest)
  | _ => none

/-- Decimal digit predicate. -/
def isDigitChar (c : Char) : Bool := '0' ≤ c && c ≤ '9'

/-- Does the input begin with a decimal digit? (Used to state that a
serialized number is followed by a delimiter, so the parser stops.) -/
def digitStart : List Char → Bool
  | [] => false
  | c :: _ => isDigitChar c

/-- Consume a run of decimal digits, accumulating their value. -/
def parseDigits : List Char → Nat → Nat × List Char
  | c :: cs, acc =>
      if isDigitChar c then parseDigits cs (acc * 10 + (c.toNat - 48)) else (acc, c :: cs)
  | [], acc => (acc, [])

/-- Decode one `\uXXXX` escape body (the part after `\u`), recombining a
surrogate pair into one code point as CPython `py_scanstring` does. Lone
surrogates are rejected — Lean's `Char` cannot hold them. -/
def parseUnicodeEscape (rest2 : List Char) : Option (Char × List Char) :=
  match parseHex4 rest2 with
  | none => none
  | some (n, rest3) =>
    if 0xd800 ≤ n ∧ n ≤ 0xdbff then
      match rest3 with
      | '\\' :: 'u' :: rest4 =>
        match parseHex4 rest4 with
        | none => none
        | some (m, rest5) =>
          if 0xdc00 ≤ m ∧ m ≤ 0xdfff then
            some (Char.ofNat (0x10000 + (n - 0xd800) * 0x400 + (m - 0xdc00)), rest5)
          else none
      | _ => none
    else if 0xdc00 ≤ n ∧ n ≤ 0xdfff then none
    else some (Char.ofNat n, rest3)

/-- Body of a string literal after the opening quote, following CPython
`py_scanstring` in strict mode: raw control characters are rejected, the
short escapes and `\uXXXX` (with surrogate pairs recombined) are decoded.
The fuel argument bounds the number of source characters consumed. -/
def parseStringRest : Nat → List Char → Option (List Char × List Char)
  | 0, _ => none
  | _ + 1, [] => none
  | fuel + 1, c :: rest =>
    if c = '"' then some ([], rest)
    else if c = '\\' then
      match rest with
      | [] => none
      | e :: rest2 =>
        if e = '"' then (parseStringRest fuel rest2).map (fun p => ('"' :: p.1, p.2))
        else if e = '\\' then (parseStringRest fuel rest2).map (fun p => ('\\' :: p.1, p.2))
        else if e = '/' then (parseStringRest fuel rest2).map (fun p => ('/' :: p.1, p.2))
        else if e = 'n' then (parseStringRest fuel rest2).map (fun p => ('\n' :: p.1, p.2))
        else if e = 'r' then (parseStringRest fuel rest2).map (fun p => ('\r' :: p.1, p.2))
        else if e = 't' then (parseStringRest fuel rest2).map (fun p => ('\t' :: p.1, p.2))
        else if e = 'b' then (parseStringRest fuel rest2).map (fun p => (Char.ofNat 8 :: p.1, p.2))
        else if e = 'f' then (parseStringRest fuel rest2).map (fun p => (Char.ofNat 12 :: p.1, p.2))
        else if e = 'u' then
          match parseUnicodeEscape rest2 with
          | none => none
          | some (ch, rest3) => (parseStringRest fuel rest3).map (fun p => (ch :: p.1, p.2))
        else none
    else if c.toNat < 0x20 then none
    else (parseStringRest fuel rest).map (fun p => (c :: p.1, p.2))

mutual

/-- Parse one JSON value off the front of the input (integer-number
fragment of the `json.loads` grammar), returning it with the unconsumed
tail. The fuel bounds nesting work; callers supply more than the input
length. -/
def parseValue : Nat → List Char → Option (Json × List Char)
  | 0, _ => none
  | fuel + 1, cs =>
    match skipWs cs with
    | [] => none
    | c :: rest =>
      if c = 'n' then
        match rest with
        | 'u' :: 'l' :: 'l' :: r => some (.null, r)
        | _ => none
      else if c = 't' then
        match rest with
        | 'r' :: 'u' :: 'e' :: r => some (.bool true, r)
        | _ => none
      else if c = 'f' then
        match rest with
        | 'a' :: 'l' :: 's' :: 'e' :: r => some (.bool false, r)
        | _ => none
      else if c = '"' then
        (parseStringRest (rest.length + 1) rest).map (fun p => (.str ⟨p.1⟩, p.2))
      else if c = '[' then
        match skipWs rest with
        | ']' :: rest2 => some (.arr [], rest2)
        | other => (parseItems fuel other).map (fun p => (.arr p.1, p.2))
      else if c = '{' then
        match skipWs rest with
        | '}' :: rest2 => some (.obj [], rest2)
        | other => (parseMembers fuel other).map (fun p => (.obj p.1, p.2))
      else if c = '-' then
        match rest with
        | d :: _ =>
            if isDigitChar d then
              let p := parseDigits rest 0
              some (.num (-(p.1 : Int)), p.2)
            else none
        | [] => none
      else if isDigitChar c then
        let p := parseDigits (c :: rest) 0
        some (.num (p.1 : Int), p.2)
      else none

/-- Parse the items of a non-empty array after its first `[` (and any
whitespace), up to and including the closing `]`. -/
def parseItems : Nat → List Char → Option (List Json × List Char)
  | 0, _ => none
  | fuel + 1, cs =>
    match parseValue fuel cs with
    | none => none
    | some (v, rest) =>
      match skipWs rest with
      | ',' :: rest2 => (parseItems fuel (skipWs rest2)).map (fun p => (v :: p.1, p.2))
      | ']' :: rest2 => some ([v], rest2)
      | _ => none

/-- Parse the members of a non-empty object after its `{` (and any
whitespace), up to and including the closing `}`. -/
def parseMembers : Nat → List Char → Option (List (String × Json) × List Char)
  | 0, _ => none
  | fuel + 1, cs =>
    match cs with
    | '"' :: rest =>
      match parseStringRest (rest.length + 1) rest with
      | none => none
      | some (k, rest2) =>
        match skipWs rest2 with
        | ':' :: rest3 =>
          match parseValue fuel rest3 with
          | none => none
          | some (v, rest4) =>
            match skipWs rest4 with
            | ',' :: rest5 =>
                (parseMembers fuel (skipWs rest5)).map (fun p => ((⟨k⟩, v) :: p.1, p.2))
            | '}' :: rest5 => some ([(⟨k⟩, v)], rest5)
            | _ => none
        | _ => none
    | _ => none

end

/-- `json.loads`: parse a complete document, requiring only trailing
whitespace after the value (CPython raises `Extra data` otherwise). -/
def jsonParse (s : String) : Option Json :=
  match parseValue (s.data.length + 1) s.data with
  | some (v, rest) => if skipWs rest = [] then some v else none
  | none => none

/-! ## Python string and uuid library functions used by the shim -/

/-- Python `str.isspace()` on a single character: the whitespace set that
`str.strip()` (with no argument) removes. -/
def pyIsSpace (c : Char) : Bool :=
  c = ' ' || c = '\t' || c = '\n' || c = '\r' ||
  c = Char.ofNat 0x0b || c = Char.ofNat 0x0c ||
  c = Char.ofNat 0x1c || c = Char.ofNat 0x1d || c = Char.ofNat 0x1e || c = Char.ofNat 0x1f ||
  c = Char.ofNat 0x85 || c = Char.ofNat 0xa0 || c = Char.ofNat 0x1680 ||
  (Char.ofNat 0x2000 ≤ c && c ≤ Char.ofNat 0x200a) ||
  c = Char.ofNat 0x2028 || c = Char.ofNat 0x2029 || c = Char.ofNat 0x202f ||
  c = Char.ofNat 0x205f || c = Char.ofNat 0x3000

/-- Python `str.strip()`: drop whitespace from both ends. -/
def pyStrip (s : String) : String :=
  ⟨((s.data.dropWhile pyIsSpace).reverse.dropWhile pyIsSpace).reverse⟩

/-- Hex digit `i` (0-based, most significant first) of the 128-bit value `r`,
as printed by `"%032x" % r`. -/
def nibble (r i : Nat) : Nat := r / 16 ^ (31 - i) % 16

/-- Hex digit `i` of `uuid.UUID(int=r, version=4)`: CPython clears and sets
the version field (`int &= ~(0xf000 << 64); int |= 0x4000 << 64`), forcing
digit 12 to `4`, and the variant field (`int &= ~(0xc000 << 48);
int |= 0x8000 << 48`), forcing the top two bits of digit 16 to `10`. -/
def uuidDigit (r i : Nat) : Nat :=
  if i = 12 then 4
  else if i = 16 then 8 + nibble r 16 % 4
  else nibble r i

/-- Character at position `i` of `str(uuid.uuid4())`: 32 lowercase hex
digits in `8-4-4-4-12` groups separated by hyphens. -/
def uuidCharAt (r i : Nat) : Char :=
  if i = 8 ∨ i = 13 ∨ i = 18 ∨ i = 23 then '-'
  else if i < 8 then hexChar (uuidDigit r i)
  else if i < 13 then hexChar (uuidDigit r (i - 1))
  else if i < 18 then hexChar (uuidDigit r (i - 2))
  else if i < 23 then hexChar (uuidDigit r (i - 3))
  else hexChar (uuidDigit r (i - 4))

/-- `str(uuid.uuid4())` as a pure function of the 128-bit random draw `r`
(`uuid.uuid4()` reads 16 random bytes and forces the version and variant
fields; `str` renders the canonical lowercase hyphenated form). -/
def uuid4 (r : Nat) : String := ⟨(List.range 36).map (uuidCharAt r)⟩

/-- Lowercase hexadecimal digit predicate. -/
def hexDigitLower (c : Char) : Bool :=
  ('0' ≤ c && c ≤ '9') || ('a' ≤ c && c ≤ 'f')

/-- Syntactic validity of a (lowercase, hyphenated) UUID version-4 string:
36 characters, hyphens at positions 8, 13, 18, 23, the version character
(position 14) is `4`, the variant character (position 19) is one of
`8`, `9`, `a`, `b`, and everything else is a hex digit. -/
def isUuidV4 (s : String) : Bool :=
  s.data.length == 36 &&
  (List.range 36).all (fun i =>
    let c := s.data.getD i ' '
    if i == 8 || i == 13 || i == 18 || i == 23 then c == '-'
    else if i == 14 then c == '4'
    else if i == 19 then c == '8' || c == '9' || c == 'a' || c == 'b'
    else hexDigitLower c)

/-! ## The shim: `decapod_shim.py` -/

/-- Captured outcome of a completed subprocess: `returncode`, and the
captured output streams already decoded to text (the shim decodes both with
`errors="replace"`, which is total, so streams are modelled as strings). -/
structure ProcResult where
  returncode : Int
  stdout : String
  stderr : String
  deriving Repr, DecidableEq

/-- Behavior of one `subprocess.run(..., check=False)` call: either the
launch itself fails (`FileNotFoundError` / `PermissionError`, an `OSError`
raised before any exit code exists) or the process runs to completion. -/
inductive SpawnResult where
  | failure (msg : String) : SpawnResult
  | completed (res : ProcResult) : SpawnResult
  deriving Repr

/-- The exceptions `run_rpc` / `run_validate` / the demo can raise:
`osError` for a failed `subprocess.run` launch, `runtimeError` for the
shim's own `raise RuntimeError(stderr.strip())` on non-zero exit (the
spec's `RpcInvocationError`), `jsonDecodeError` for a `json.loads`
failure, `attributeError` for `.get` on a non-dict decoded value. -/
inductive PyError where
  | osError (msg : String) : PyError
  | runtimeError (msg : String) : PyError
  | jsonDecodeError (text : String) : PyError
  | attributeError : PyError
  deriving Repr, DecidableEq

/-- `RpcResponse` dataclass. The `id` field is whatever JSON value
`raw.get("id", payload["id"])` produces (the dataclass annotation `id: str`
is not enforced at runtime), so it is modelled as `Json`. -/
structure RpcResponse where
  id : Json
  success : Bool
  raw : Json

/-- `request_id or str(uuid.uuid4())`: Python `or` falls through on any
falsy value, i.e. both on `None` and on the empty string. -/
def pyOrStr (x : Option String) (dflt : String) : String :=
  match x with
  | some s => if s.data = [] then dflt else s
  | none => dflt

/-- `params or {}`: falls through both on `None` and on an empty dict. -/
def paramsOrEmpty (params : Option (List (String × Json))) : List (String × Json) :=
  match params with
  | some [] => []
  | some fs => fs
  | none => []

/-- The request payload dict built by `run_rpc`:
`{"id": request_id or str(uuid.uuid4()), "op": op, "params": params or {}}`.
`r` is the 128-bit random draw consumed if a fresh UUID is generated. -/
def rpcPayload (op : String) (params : Option (List (String × Json)))
    (request_id : Option String) (r : Nat) : Json :=
  .obj [("id", .str (pyOrStr request_id (uuid4 r))),
        ("op", .str op),
        ("params", .obj (paramsOrEmpty params))]

/-- `json.dumps(payload)`: the exact text `run_rpc` writes to the
subprocess's stdin. -/
def requestJson (op : String) (params : Option (List (String × Json)))
    (request_id : Option String) (r : Nat) : String :=
  jsonDumps (rpcPayload op params request_id r)

/-- `run_rpc`. The external `decapod rpc --stdin` subprocess is modelled by
`spawn`, mapping the text written to its stdin to a launch outcome; `r` is
the random draw backing `uuid.uuid4()`. Exceptions travel in `Except`:
non-zero exit raises `RuntimeError(stderr.strip())`; on exit 0 the stdout
text is decoded with `json.loads` (a failure propagates as a
`json.JSONDecodeError`), and `raw.get(...)` on a non-dict raises
`AttributeError`. -/
def run_rpc (op : String) (params : Option (List (String × Json)) := none)
    (request_id : Option String := none) (r : Nat := 0)
    (spawn : String → SpawnResult := fun _ => .failure "decapod: not found") :
    Except PyError RpcResponse :=
  let payloadId := pyOrStr request_id (uuid4 r)
  match spawn (requestJson op params request_id r) with
  | .failure msg => .error (.osError msg)
  | .completed proc =>
    if proc.returncode ≠ 0 then
      .error (.runtimeError (pyStrip proc.stderr))
    else
      match jsonParse proc.stdout with
      | none => .error (.jsonDecodeError proc.stdout)
      | some raw =>
        match raw with
        | .obj _ =>
            .ok { id := (raw.getField "id").getD (.str payloadId),
                  success := ((raw.getField "success").getD (.bool false)).truthy,
                  raw := raw }
        | _ => .error .attributeError

/-- The dict returned by `run_validate`, with its six fixed keys. -/
structure ValidateEnvelope where
  envelope_version : String
  cmd : String
  status : String
  exit_code : Int
  stdout : String
  stderr : String
  deriving Repr, DecidableEq

/-- `run_validate`. The `decapod validate` subprocess is modelled by
`spawn`; a launch failure propagates as the `OSError` raised by
`subprocess.run`, and every completed run is wrapped into the envelope. -/
def run_validate (spawn : SpawnResult) : Except PyError ValidateEnvelope :=
  match spawn with
  | .failure msg => .error (.osError msg)
  | .completed proc =>
      .ok { envelope_version := "1.0.0", cmd := "validate",
            status := if proc.returncode = 0 then "ok" else "error",
            exit_code := proc.returncode,
            stdout := proc.stdout, stderr := proc.stderr }

/-! ## The demo: `python_validate_demo.py` -/

/-- Observable outcome of the demo's `main`: the JSON object passed to
`print(json.dumps(..., indent=2))`, the return code, and whether the
`decapod` subprocess was invoked. -/
structure DemoOutcome where
  printed : Json
  exitCode : Int
  invokedSubprocess : Bool

/-- The demo's `main`. `fixture` is the fixture file's text when
`--fixture` names a readable file, `none` when the flag is absent;
`spawn` models the `decapod validate` subprocess that the non-fixture
branch invokes through `run_validate`. -/
def demoMain (fixture : Option String) (spawn : SpawnResult) :
    Except PyError DemoOutcome :=
  match fixture with
  | some content =>
    match jsonParse content with
    | none => .error (.jsonDecodeError content)
    | some data =>
      match data with
      | .obj _ =>
          .ok { printed := .obj [("demo", .str "python"),
                                 ("status", (data.getField "status").getD (.str "unknown"))],
                exitCode := 0, invokedSubprocess := false }
      | _ => .error .attributeError
  | none =>
    match run_validate spawn with
    | .error e => .error e
    | .ok env =>
        .ok { printed := .obj [("demo", .str "python"),
                               ("status", .str env.status),
                               ("exit_code", .num env.exit_code)],
              exitCode := 0, invokedSubprocess := true }

/-! ## UUID v4 validity -/

theorem hexDigitLower_hexChar {d : Nat} (h : d < 16) :
    hexDigitLower (hexChar d) = true := by
  interval_cases d <;> decide

theorem nibble_lt (r i : Nat) : nibble r i < 16 :=
  Nat.mod_lt _ (by decide)

theorem uuidDigit_lt (r i : Nat) : uuidDigit r i < 16 := by
  unfold uuidDigit
  split
  · decide
  · split
    · have := Nat.mod_lt (nibble r 16) (y := 4) (by decide)
      omega
    · exact nibble_lt r i

theorem variantCharOk (m : Nat) (h : m < 4) :
    (hexChar (8 + m) == '8' || hexChar (8 + m) == '9' ||
     hexChar (8 + m) == 'a' || hexChar (8 + m) == 'b') = true := by
  interval_cases m <;> decide

theorem variantCharOk' (m : Nat) (h : m < 4) :
    ((hexChar (8 + m) = '8' ∨ hexChar (8 + m) = '9') ∨ hexChar (8 + m) = 'a') ∨
      hexChar (8 + m) = 'b' := by
  interval_cases m <;> decide

/-- Every string `str(uuid.uuid4())` can produce is a syntactically valid
version-4 UUID, whatever the 128-bit random draw. -/
theorem isUuidV4_uuid4 (r : Nat) : isUuidV4 (uuid4 r) = true := by
  have hdata : (uuid4 r).data = (List.range 36).map (uuidCharAt r) := rfl
  unfold isUuidV4
  rw [hdata]
  simp only [List.length_map, List.length_range, beq_self_eq_true, Bool.true_and,
    List.all_eq_true, List.mem_range]
  intro i hi
  have hget : ((List.range 36).map (uuidCharAt r)).getD i ' ' = uuidCharAt r i := by
    rw [List.getD_eq_getElem?_getD]
    rw [List.getElem?_map]
    rw [List.getElem?_range hi]
    rfl
  simp only [hget]
  interval_cases i
  all_goals simp only [uuidCharAt, uuidDigit, nibble]
  all_goals try norm_num
  all_goals
    first
      | decide
      | exact hexDigitLower_hexChar (Nat.mod_lt _ (by decide))
      | exact variantCharOk _ (Nat.mod_lt _ (by decide))
      | exact variantCharOk' _ (Nat.mod_lt _ (by decide))

/-! ## Round-trip: the parser inverts the serializer -/

theorem skipWs_cons_of_neg {c : Char} {cs : List Char} (h : jsonWs c = false) :
    skipWs (c :: cs) = c :: cs := by
  simp [skipWs, List.dropWhile_cons, h]

theorem skipWs_cons_of_ws {c : Char} {cs : List Char} (h : jsonWs c = true) :
    skipWs (c :: cs) = skipWs cs := by
  simp [skipWs, List.dropWhile_cons, h]

theorem hexVal_hexChar {d : Nat} (h : d < 16) : hexVal (hexChar d) = some d := by
  interval_cases d <;> decide

theorem parseHex4_hex4 {n : Nat} (h : n < 65536) (rest : List Char) :
    parseHex4 (hex4 n ++ rest) = some (n, rest) := by
  have h1 : n / 4096 % 16 < 16 := Nat.mod_lt _ (by decide)
  have h2 : n / 256 % 16 < 16 := Nat.mod_lt _ (by decide)
  have h3 : n / 16 % 16 < 16 := Nat.mod_lt _ (by decide)
  have h4 : n % 16 < 16 := Nat.mod_lt _ (by decide)
  simp [hex4, parseHex4, hexVal_hexChar h1, hexVal_hexChar h2, hexVal_hexChar h3,
    hexVal_hexChar h4]
  omega

/-- The code point of any `Char` is a Unicode scalar value: below the
surrogate block or above it and below `0x110000`. -/
theorem char_toNat_valid (c : Char) :
    c.toNat < 0xd800 ∨ (0xdfff < c.toNat ∧ c.toNat < 0x110000) :=
  c.valid

theorem escapeChar_length_pos (c : Char) : 1 ≤ (escapeChar c).length := by
  unfold escapeChar
  split_ifs <;> simp [hex4]

theorem length_le_escaped (cs : List Char) :
    cs.length ≤ ((cs.map escapeChar).flatten).length := by
  induction cs with
  | nil => simp
  | cons c cs ih =>
      simp only [List.map_cons, List.flatten_cons, List.length_append, List.length_cons]
      have := escapeChar_length_pos c
      omega

theorem parse_plain_step (c : Char) (f : Nat) (tail : List Char)
    (hq : ¬ c = '"') (hb : ¬ c = '\\') (hp : 32 ≤ c.toNat ∧ c.toNat ≤ 126) :
    parseStringRest (f + 1) (c :: tail)
      = (parseStringRest f tail).map (fun p => (c :: p.1, p.2)) := by
  have hlow : ¬ c.toNat < 0x20 := by omega
  simp [parseStringRest, hq, hb, hlow]

theorem parseUnicodeEscape_bmp (c : Char) (tail : List Char)
    (hbmp : c.toNat < 65536) :
    parseUnicodeEscape (hex4 c.toNat ++ tail) = some (c, tail) := by
  have hval := char_toNat_valid c
  have hs1 : ¬ (0xd800 ≤ c.toNat ∧ c.toNat ≤ 0xdbff) := by omega
  have hs2 : ¬ (0xdc00 ≤ c.toNat ∧ c.toNat ≤ 0xdfff) := by omega
  simp [parseUnicodeEscape, parseHex4_hex4 hbmp, hs1, hs2, Char.ofNat_toNat]

theorem parseUnicodeEscape_pair (hi lo : Nat) (tail : List Char)
    (hhiR : 0xd800 ≤ hi ∧ hi ≤ 0xdbff) (hloR : 0xdc00 ≤ lo ∧ lo ≤ 0xdfff) :
    parseUnicodeEscape (hex4 hi ++ ('\\' :: 'u' :: (hex4 lo ++ tail)))
      = some (Char.ofNat (0x10000 + (hi - 0xd800) * 0x400 + (lo - 0xdc00)), tail) := by
  have hhi : hi < 65536 := by omega
  have hlo : lo < 65536 := by omega
  simp [parseUnicodeEscape, parseHex4_hex4 hhi, parseHex4_hex4 hlo, hhiR, hloR]

theorem parseUnicodeEscape_surrogate (c : Char) (tail : List Char)
    (hge : 65536 ≤ c.toNat) :
    parseUnicodeEscape (hex4 (0xd800 + (c.toNat - 0x10000) / 0x400) ++
        ('\\' :: 'u' :: (hex4 (0xdc00 + (c.toNat - 0x10000) % 0x400) ++ tail)))
      = some (c, tail) := by
  have hval := char_toNat_valid c
  have hlt : c.toNat < 0x110000 := by omega
  have hhiR : 0xd800 ≤ 0xd800 + (c.toNat - 0x10000) / 0x400 ∧
      0xd800 + (c.toNat - 0x10000) / 0x400 ≤ 0xdbff := by omega
  have hloR : 0xdc00 ≤ 0xdc00 + (c.toNat - 0x10000) % 0x400 ∧
      0xdc00 + (c.toNat - 0x10000) % 0x400 ≤ 0xdfff := by omega
  rw [parseUnicodeEscape_pair _ _ tail hhiR hloR]
  have hrecon : 0x10000 +
      (0xd800 + (c.toNat - 0x10000) / 0x400 - 0xd800) * 0x400 +
      (0xdc00 + (c.toNat - 0x10000) % 0x400 - 0xdc00) = c.toNat := by omega
  rw [hrecon, Char.ofNat_toNat]

theorem parse_u_step (f : Nat) (rest2 : List Char) (ch : Char) (tail : List Char)
    (h : parseUnicodeEscape rest2 = some (ch, tail)) :
    parseStringRest (f + 1) ('\\' :: 'u' :: rest2)
      = (parseStringRest f tail).map (fun p => (ch :: p.1, p.2)) := by
  simp [parseStringRest, h]

/-- One escaped character parses back to that character, and the parse
continues in the tail with one unit of fuel consumed. -/
theorem parse_escape_step (c : Char) (f : Nat) (tail : List Char) :
    parseStringRest (f + 1) (escapeChar c ++ tail)
      = (parseStringRest f tail).map (fun p => (c :: p.1, p.2)) := by
  by_cases hq : c = '"'
  · subst hq
    rw [show escapeChar '"' = ['\\', '"'] from rfl]
    simp [parseStringRest]
  by_cases hb : c = '\\'
  · subst hb
    rw [show escapeChar '\\' = ['\\', '\\'] from rfl]
    simp [parseStringRest]
  by_cases hn : c = '\n'
  · subst hn
    rw [show escapeChar '\n' = ['\\', 'n'] from rfl]
    simp [parseStringRest]
  by_cases hr : c = '\r'
  · subst hr
    rw [show escapeChar '\r' = ['\\', 'r'] from rfl]
    simp [parseStringRest]
  by_cases ht : c = '\t'
  · subst ht
    rw [show escapeChar '\t' = ['\\', 't'] from rfl]
    simp [parseStringRest]
  by_cases hbb : c = Char.ofNat 8
  · subst hbb
    rw [show escapeChar (Char.ofNat 8) = ['\\', 'b'] from rfl]
    simp [parseStringRest]
  by_cases hff : c = Char.ofNat 12
  · subst hff
    rw [show escapeChar (Char.ofNat 12) = ['\\', 'f'] from rfl]
    simp [parseStringRest]
  by_cases hp : 32 ≤ c.toNat ∧ c.toNat ≤ 126
  · rw [show escapeChar c = [c] by simp [escapeChar, hq, hb, hn, hr, ht, hbb, hff, hp]]
    exact parse_plain_step c f tail hq hb hp
  by_cases hbmp : c.toNat < 65536
  · rw [show escapeChar c = '\\' :: 'u' :: hex4 c.toNat by
      simp [escapeChar, hq, hb, hn, hr, ht, hbb, hff, hp, hbmp]]
    simp only [List.cons_append]
    exact parse_u_step f _ c tail (parseUnicodeEscape_bmp c tail hbmp)
  · rw [show escapeChar c =
        ('\\' :: 'u' :: hex4 (0xd800 + (c.toNat - 0x10000) / 0x400)) ++
          ('\\' :: 'u' :: hex4 (0xdc00 + (c.toNat - 0x10000) % 0x400)) by
      simp [escapeChar, hq, hb, hn, hr, ht, hbb, hff, hp, hbmp]]
    simp only [List.cons_append, List.append_assoc]
    exact parse_u_step f _ c tail (parseUnicodeEscape_surrogate c tail (by omega))

/-- An escaped character sequence followed by the closing quote parses back
to the original characters. -/
theorem parseStringRest_escaped (cs : List Char) :
    ∀ (fuel : Nat) (rest : List Char), cs.length < fuel →
      parseStringRest fuel ((cs.map escapeChar).flatten ++ '"' :: rest) = some (cs, rest) := by
  induction cs with
  | nil =>
      intro fuel rest hf
      obtain ⟨f, rfl⟩ : ∃ f, fuel = f + 1 := ⟨fuel - 1, by omega⟩
      simp [parseStringRest]
  | cons c cs ih =>
      intro fuel rest hf
      obtain ⟨f, rfl⟩ : ∃ f, fuel = f + 1 := ⟨fuel - 1, by omega⟩
      have hT := ih f rest (by simp at hf; omega)
      simp only [List.map_cons, List.flatten_cons, List.append_assoc]
      rw [parse_escape_step, hT]
      rfl

theorem parseDigits_no_digit {cs : List Char} (h : digitStart cs = false) (acc : Nat) :
    parseDigits cs acc = (acc, cs) := by
  cases cs with
  | nil => rfl
  | cons c cs =>
      simp only [digitStart] at h
      simp [parseDigits, h]

theorem digitChar_facts {d : Nat} (h : d < 10) :
    (Char.ofNat (48 + d)).toNat = 48 + d ∧ isDigitChar (Char.ofNat (48 + d)) = true := by
  interval_cases d <;> exact ⟨rfl, by decide⟩

theorem parseDigits_mapped (ds : List Nat) :
    ∀ (acc : Nat) (rest : List Char), (∀ d ∈ ds, d < 10) → digitStart rest = false →
      parseDigits ((ds.map fun d => Char.ofNat (48 + d)) ++ rest) acc
        = (ds.foldl (fun a d => a * 10 + d) acc, rest) := by
  induction ds with
  | nil =>
      intro acc rest _ hrest
      simpa using parseDigits_no_digit hrest acc
  | cons d ds ih =>
      intro acc rest hd hrest
      have hd0 : d < 10 := hd d (List.mem_cons_self d ds)
      have hds : ∀ x ∈ ds, x < 10 := fun x hx => hd x (List.mem_cons_of_mem _ hx)
      have hfacts := digitChar_facts hd0
      simp only [List.map_cons, List.cons_append, List.foldl_cons]
      rw [show parseDigits
            (Char.ofNat (48 + d) :: ((ds.map fun d => Char.ofNat (48 + d)) ++ rest)) acc
          = parseDigits ((ds.map fun d => Char.ofNat (48 + d)) ++ rest)
              (acc * 10 + ((Char.ofNat (48 + d)).toNat - 48)) by
        simp [parseDigits, hfacts.2]]
      rw [hfacts.1, Nat.add_sub_cancel_left]
      exact ih _ rest hds hrest

theorem foldr_eq_ofDigits (L : List Nat) :
    L.foldr (fun d a => a * 10 + d) 0 = Nat.ofDigits 10 L := by
  induction L with
  | nil => simp
  | cons d L ih =>
      simp only [List.foldr_cons, Nat.ofDigits_cons, ih]
      ring

theorem printNat_parse (n : Nat) (rest : List Char) (hrest : digitStart rest = false) :
    parseDigits (printNat n ++ rest) 0 = (n, rest) := by
  by_cases h0 : n = 0
  · subst h0
    rw [show printNat 0 = ['0'] from rfl, List.singleton_append]
    have hd0 : isDigitChar '0' = true := by decide
    rw [show parseDigits ('0' :: rest) 0
        = parseDigits rest (0 * 10 + ('0'.toNat - 48)) by simp [parseDigits, hd0]]
    simpa using parseDigits_no_digit hrest 0
  · unfold printNat
    rw [if_neg h0, ← List.map_reverse]
    rw [parseDigits_mapped _ 0 rest
      (fun d hd => Nat.digits_lt_base (by norm_num) (List.mem_reverse.mp hd)) hrest]
    rw [List.foldl_reverse]
    have hfold : (Nat.digits 10 n).foldr (fun d a => a * 10 + d) 0 = n := by
      rw [foldr_eq_ofDigits]
      exact_mod_cast Nat.ofDigits_digits 10 n
    rw [show (fun (x : Nat) (y : Nat) => (fun a d => a * 10 + d) y x)
        = (fun d a => a * 10 + d) from rfl, hfold]

theorem printNat_ne_nil (n : Nat) : printNat n ≠ [] := by
  unfold printNat
  split
  · simp
  · simp [Nat.digits_ne_nil_iff_ne_zero, *]

theorem printNat_all_digits (n : Nat) : ∀ c ∈ printNat n, isDigitChar c = true := by
  intro c hc
  unfold printNat at hc
  split at hc
  · simp at hc; subst hc; decide
  · rw [List.mem_reverse] at hc
    obtain ⟨d, hd, rfl⟩ := List.mem_map.mp hc
    exact (digitChar_facts (Nat.digits_lt_base (by norm_num) hd)).2

theorem printNat_head (n : Nat) :
    ∃ c t, printNat n = c :: t ∧ isDigitChar c = true := by
  obtain ⟨c, t, h⟩ := List.exists_cons_of_ne_nil (printNat_ne_nil n)
  exact ⟨c, t, h, printNat_all_digits n c (by rw [h]; exact List.mem_cons_self c t)⟩

theorem digit_ne {c x : Char} (h : isDigitChar c = true) (hx : isDigitChar x = false) :
    c ≠ x := by
  intro hEq
  subst hEq
  simp [h] at hx

theorem digit_not_ws {c : Char} (h : isDigitChar c = true) : jsonWs c = false := by
  simp only [isDigitChar, Bool.and_eq_true, decide_eq_true_eq] at h
  obtain ⟨h1, h2⟩ := h
  by_contra hw
  simp only [Bool.not_eq_false, jsonWs, Bool.or_eq_true, decide_eq_true_eq] at hw
  rcases hw with ((hh | hh) | hh) | hh <;> subst hh <;> revert h1 h2 <;> decide

/-- Every serialized JSON value starts with a character that is not
whitespace and not a closing delimiter or separator. -/
theorem printJson_head (v : Json) :
    ∃ c t, printJson v = c :: t ∧ jsonWs c = false ∧ c ≠ ']' ∧ c ≠ '}' ∧ c ≠ ',' := by
  cases v with
  | null => exact ⟨'n', _, rfl, by decide, by decide, by decide, by decide⟩
  | bool b =>
      cases b
      · exact ⟨'f', _, rfl, by decide, by decide, by decide, by decide⟩
      · exact ⟨'t', _, rfl, by decide, by decide, by decide, by decide⟩
  | num n =>
      cases n with
      | ofNat m =>
          obtain ⟨c, t, hpn, hdc⟩ := printNat_head m
          refine ⟨c, t, ?_, digit_not_ws hdc, digit_ne hdc (by decide),
            digit_ne hdc (by decide), digit_ne hdc (by decide)⟩
          rw [show printJson (.num (.ofNat m)) = printNat m from rfl, hpn]
      | negSucc m =>
          exact ⟨'-', _, rfl, by decide, by decide, by decide, by decide⟩
  | str s => exact ⟨'"', _, rfl, by decide, by decide, by decide, by decide⟩
  | arr xs => exact ⟨'[', _, rfl, by decide, by decide, by decide, by decide⟩
  | obj fs => exact ⟨'{', _, rfl, by decide, by decide, by decide, by decide⟩

theorem skipWs_printJson (v : Json) (R : List Char) :
    skipWs (printJson v ++ R) = printJson v ++ R := by
  obtain ⟨c, t, h, hw, _, _, _⟩ := printJson_head v
  rw [h, List.cons_append, skipWs_cons_of_neg hw, ← List.cons_append, ← h]

theorem printItems_head (x : Json) (xs : List Json) :
    ∃ c t, printItems (x :: xs) = c :: t ∧ jsonWs c = false ∧ c ≠ ']' ∧ c ≠ '}' ∧ c ≠ ',' := by
  obtain ⟨c, t, h, hw, h1, h2, h3⟩ := printJson_head x
  cases xs with
  | nil => exact ⟨c, t, by rw [show printItems [x] = printJson x from rfl, h], hw, h1, h2, h3⟩
  | cons y ys =>
      exact ⟨c, t ++ ',' :: ' ' :: printItems (y :: ys), by
        rw [show printItems (x :: y :: ys)
            = printJson x ++ ',' :: ' ' :: printItems (y :: ys) from rfl, h,
          List.cons_append], hw, h1, h2, h3⟩

theorem printFields_head (k : String) (v : Json) (fs : List (String × Json)) :
    ∃ t, printFields ((k, v) :: fs) = '"' :: t := by
  cases fs with
  | nil =>
      exact ⟨(k.data.map escapeChar).flatten ++ ['"'] ++ ':' :: ' ' :: printJson v, by
        rw [show printFields [(k, v)] = printString k ++ ':' :: ' ' :: printJson v from rfl,
          show printString k = '"' :: ((k.data.map escapeChar).flatten ++ ['"']) from rfl,
          List.cons_append, List.append_assoc]⟩
  | cons kv fs =>
      exact ⟨(k.data.map escapeChar).flatten ++ ['"'] ++ ':' :: ' ' :: printJson v
          ++ ',' :: ' ' :: printFields (kv :: fs), by
        rw [show printFields ((k, v) :: kv :: fs)
            = printString k ++ ':' :: ' ' :: printJson v ++ ',' :: ' ' :: printFields (kv :: fs)
            from rfl,
          show printString k = '"' :: ((k.data.map escapeChar).flatten ++ ['"']) from rfl]
        simp only [List.cons_append, List.append_assoc]⟩

theorem digitStart_cons_false {c : Char} (h : isDigitChar c = false) (cs : List Char) :
    digitStart (c :: cs) = false := h

theorem parseValue_cons_ws (fuel : Nat) {c : Char} (hc : jsonWs c = true)
    (cs : List Char) : parseValue fuel (c :: cs) = parseValue fuel cs := by
  cases fuel with
  | zero => rfl
  | succ f => simp only [parseValue, skipWs_cons_of_ws hc]

/-- The joint induction: every serialized value, item list and member list
parses back to itself, leaving the trailing input untouched, as long as the
fuel exceeds the length of the serialized text (and the trailing input does
not begin with a digit, so number parses stop at the boundary). -/
theorem parse_print (fuel : Nat) :
    (∀ v rest, (printJson v).length < fuel → digitStart rest = false →
        parseValue fuel (printJson v ++ rest) = some (v, rest)) ∧
    (∀ x xs rest, (printItems (x :: xs)).length + 1 < fuel →
        parseItems fuel (printItems (x :: xs) ++ ']' :: rest) = some (x :: xs, rest)) ∧
    (∀ k v fs rest, (printFields ((k, v) :: fs)).length + 1 < fuel →
        parseMembers fuel (printFields ((k, v) :: fs) ++ '}' :: rest)
          = some ((k, v) :: fs, rest)) := by
  induction fuel with
  | zero =>
      refine ⟨?_, ?_, ?_⟩ <;> intros <;> omega
  | succ f ih =>
      obtain ⟨iha, ihb, ihc⟩ := ih
      refine ⟨?_, ?_, ?_⟩
      · -- values
        intro v rest hlen hrest
        cases v with
        | null =>
            rw [show printJson .null = ['n', 'u', 'l', 'l'] from rfl]
            simp [parseValue, skipWs, jsonWs]
        | bool b =>
            cases b
            · rw [show printJson (.bool false) = ['f', 'a', 'l', 's', 'e'] from rfl]
              simp [parseValue, skipWs, jsonWs]
            · rw [show printJson (.bool true) = ['t', 'r', 'u', 'e'] from rfl]
              simp [parseValue, skipWs, jsonWs]
        | num n =>
            cases n with
            | ofNat m =>
                rw [show printJson (.num (.ofNat m)) = printNat m from rfl]
                obtain ⟨c, t, hpn, hdc⟩ := printNat_head m
                rw [hpn, List.cons_append]
                have hne : ∀ x : Char, isDigitChar x = false → c ≠ x :=
                  fun x hx => digit_ne hdc hx
                rw [show parseValue (f + 1) (c :: (t ++ rest))
                    = some (.num ((parseDigits (c :: (t ++ rest)) 0).1 : Int),
                        (parseDigits (c :: (t ++ rest)) 0).2) by
                  simp [parseValue, skipWs_cons_of_neg (digit_not_ws hdc),
                    hne 'n' (by decide), hne 't' (by decide), hne 'f' (by decide),
                    hne '"' (by decide), hne '[' (by decide), hne '{' (by decide),
                    hne '-' (by decide), hdc]]
                rw [← List.cons_append, ← hpn, printNat_parse m rest hrest]
                rfl
            | negSucc m =>
                rw [show printJson (.num (.negSucc m)) = '-' :: printNat (m + 1) from rfl]
                obtain ⟨c, t, hpn, hdc⟩ := printNat_head (m + 1)
                rw [List.cons_append, hpn, List.cons_append]
                rw [show parseValue (f + 1) ('-' :: (c :: (t ++ rest)))
                    = some (.num (-((parseDigits (c :: (t ++ rest)) 0).1 : Int)),
                        (parseDigits (c :: (t ++ rest)) 0).2) by
                  simp [parseValue, skipWs, jsonWs, hdc]]
                rw [← List.cons_append, ← hpn, printNat_parse (m + 1) rest hrest]
                simp [Int.negSucc_eq]
        | str s =>
            rw [show printJson (.str s)
                = '"' :: ((s.data.map escapeChar).flatten ++ ['"']) from rfl]
            rw [List.cons_append, List.append_assoc, List.singleton_append]
            have hslen : s.data.length
                < ((s.data.map escapeChar).flatten ++ '"' :: rest).length + 1 := by
              have := length_le_escaped s.data
              simp only [List.length_append]
              omega
            rw [show parseValue (f + 1)
                  ('"' :: ((s.data.map escapeChar).flatten ++ '"' :: rest))
                = (parseStringRest
                    (((s.data.map escapeChar).flatten ++ '"' :: rest).length + 1)
                    ((s.data.map escapeChar).flatten ++ '"' :: rest)).map
                      (fun p => (.str (String.mk p.1), p.2)) by
              simp [parseValue, skipWs, jsonWs]]
            rw [parseStringRest_escaped s.data _ rest hslen]
            rfl
        | arr xs =>
            cases xs with
            | nil =>
                rw [show printJson (.arr []) = ['[', ']'] from rfl]
                simp [parseValue, skipWs, jsonWs]
            | cons x xs =>
                rw [show printJson (.arr (x :: xs))
                    = '[' :: (printItems (x :: xs) ++ [']']) from rfl] at hlen ⊢
                rw [List.cons_append, List.append_assoc, List.singleton_append]
                obtain ⟨c, t, hpi, hw, hc1, hc2, hc3⟩ := printItems_head x xs
                have hstep : parseValue (f + 1)
                      ('[' :: (printItems (x :: xs) ++ ']' :: rest))
                    = (match skipWs (printItems (x :: xs) ++ ']' :: rest) with
                       | ']' :: rest2 => some (Json.arr [], rest2)
                       | other => (parseItems f other).map
                           (fun p => (Json.arr p.1, p.2))) := by
                  simp [parseValue, skipWs, jsonWs]
                rw [hstep, hpi, List.cons_append, skipWs_cons_of_neg hw]
                have harm : (match (c :: (t ++ ']' :: rest) : List Char) with
                       | ']' :: rest2 => some (Json.arr [], rest2)
                       | other => (parseItems f other).map
                           (fun p => (Json.arr p.1, p.2)))
                    = (parseItems f (c :: (t ++ ']' :: rest))).map
                        (fun p => (Json.arr p.1, p.2)) := by
                  split
                  · rename_i rest2 heq
                    exact absurd (List.head_eq_of_cons_eq heq) hc1
                  · rfl
                rw [harm, ← List.cons_append, ← hpi]
                rw [ihb x xs rest (by
                  simp only [List.length_cons, List.length_append,
                    List.length_singleton] at hlen
                  omega)]
                rfl
        | obj fs =>
            cases fs with
            | nil =>
                rw [show printJson (.obj []) = ['{', '}'] from rfl]
                simp [parseValue, skipWs, jsonWs]
            | cons kv fs =>
                obtain ⟨k, v⟩ := kv
                rw [show printJson (.obj ((k, v) :: fs))
                    = '{' :: (printFields ((k, v) :: fs) ++ ['}']) from rfl] at hlen ⊢
                rw [List.cons_append, List.append_assoc, List.singleton_append]
                obtain ⟨t, hpf⟩ := printFields_head k v fs
                have hstep : parseValue (f + 1)
                      ('{' :: (printFields ((k, v) :: fs) ++ '}' :: rest))
                    = (match skipWs (printFields ((k, v) :: fs) ++ '}' :: rest) with
                       | '}' :: rest2 => some (Json.obj [], rest2)
                       | other => (parseMembers f other).map
                           (fun p => (Json.obj p.1, p.2))) := by
                  simp [parseValue, skipWs, jsonWs]
                rw [hstep, hpf, List.cons_append,
                  skipWs_cons_of_neg (by decide : jsonWs '"' = false)]
                have harm : (match ('"' :: (t ++ '}' :: rest) : List Char) with
                       | '}' :: rest2 => some (Json.obj [], rest2)
                       | other => (parseMembers f other).map
                           (fun p => (Json.obj p.1, p.2)))
                    = (parseMembers f ('"' :: (t ++ '}' :: rest))).map
                        (fun p => (Json.obj p.1, p.2)) := by
                  split
                  · rename_i rest2 heq
                    exact absurd (List.head_eq_of_cons_eq heq) (by decide)
                  · rfl
                rw [harm, ← List.cons_append, ← hpf]
                rw [ihc k v fs rest (by
                  simp only [List.length_cons, List.length_append,
                    List.length_singleton] at hlen
                  omega)]
                rfl
      · -- item lists
        intro x xs rest hlen
        cases xs with
        | nil =>
            rw [show printItems [x] = printJson x from rfl] at hlen ⊢
            simp only [parseItems]
            rw [iha x (']' :: rest) (by omega) (digitStart_cons_false (by decide) _)]
            simp [skipWs, jsonWs]
        | cons y ys =>
            rw [show printItems (x :: y :: ys)
                = printJson x ++ ',' :: ' ' :: printItems (y :: ys) from rfl] at hlen ⊢
            rw [List.append_assoc, List.cons_append, List.cons_append]
            simp only [parseItems]
            have hxlen : (printJson x).length < f := by
              simp only [List.length_append, List.length_cons] at hlen
              omega
            rw [iha x (',' :: ' ' :: (printItems (y :: ys) ++ ']' :: rest)) hxlen
              (digitStart_cons_false (by decide) _)]
            have hbound2 : (printItems (y :: ys)).length + 1 < f := by
              simp only [List.length_append, List.length_cons] at hlen
              omega
            obtain ⟨c, t, hpi, hw, _, _, _⟩ := printItems_head y ys
            have hskip : skipWs (' ' :: (printItems (y :: ys) ++ ']' :: rest))
                = printItems (y :: ys) ++ ']' :: rest := by
              rw [skipWs_cons_of_ws (by decide : jsonWs ' ' = true), hpi,
                List.cons_append, skipWs_cons_of_neg hw, ← List.cons_append, ← hpi]
            have hskip2 : skipWs (',' :: ' ' :: (printItems (y :: ys) ++ ']' :: rest))
                = ',' :: (' ' :: (printItems (y :: ys) ++ ']' :: rest)) :=
              skipWs_cons_of_neg (by decide)
            simp [hskip2, hskip, ihb y ys rest hbound2]
      · -- member lists
        intro k v fs rest hlen
        have hklen : ∀ X : List Char, k.data.length
            < ((k.data.map escapeChar).flatten ++ '"' :: X).length + 1 := by
          intro X
          have := length_le_escaped k.data
          simp only [List.length_append]
          omega
        cases fs with
        | nil =>
            rw [show printFields [(k, v)]
                = printString k ++ ':' :: ' ' :: printJson v from rfl] at hlen ⊢
            rw [show printString k
                = '"' :: ((k.data.map escapeChar).flatten ++ ['"']) from rfl] at hlen ⊢
            simp only [List.cons_append, List.append_assoc, List.singleton_append,
              List.nil_append]
            simp only [parseMembers]
            rw [parseStringRest_escaped k.data _
              (':' :: ' ' :: (printJson v ++ '}' :: rest)) (hklen _)]
            have hvlen : (printJson v).length < f := by
              simp only [List.length_cons, List.length_append,
                List.length_singleton] at hlen
              omega
            have hskip3 : skipWs (':' :: ' ' :: (printJson v ++ '}' :: rest))
                = ':' :: (' ' :: (printJson v ++ '}' :: rest)) :=
              skipWs_cons_of_neg (by decide)
            have hval : parseValue f (' ' :: (printJson v ++ '}' :: rest))
                = some (v, '}' :: rest) := by
              rw [parseValue_cons_ws f (by decide : jsonWs ' ' = true)]
              exact iha v ('}' :: rest) hvlen (digitStart_cons_false (by decide) _)
            simp [hskip3, hval, skipWs, jsonWs]
        | cons kv fs =>
            obtain ⟨k2, v2⟩ := kv
            rw [show printFields ((k, v) :: (k2, v2) :: fs)
                = printString k ++ ':' :: ' ' :: printJson v
                  ++ ',' :: ' ' :: printFields ((k2, v2) :: fs) from rfl] at hlen ⊢
            rw [show printString k
                = '"' :: ((k.data.map escapeChar).flatten ++ ['"']) from rfl] at hlen ⊢
            simp only [List.cons_append, List.append_assoc, List.singleton_append,
              List.nil_append]
            simp only [parseMembers]
            rw [parseStringRest_escaped k.data _
              (':' :: ' ' :: (printJson v ++ ',' :: ' '
                :: (printFields ((k2, v2) :: fs) ++ '}' :: rest))) (hklen _)]
            have hvlen : (printJson v).length < f := by
              simp only [List.length_cons, List.length_append,
                List.length_singleton] at hlen
              omega
            have hskip3 : skipWs (':' :: ' ' :: (printJson v ++ ',' :: ' '
                  :: (printFields ((k2, v2) :: fs) ++ '}' :: rest)))
                = ':' :: (' ' :: (printJson v ++ ',' :: ' '
                  :: (printFields ((k2, v2) :: fs) ++ '}' :: rest))) :=
              skipWs_cons_of_neg (by decide)
            have hval : parseValue f (' ' :: (printJson v ++ ',' :: ' '
                  :: (printFields ((k2, v2) :: fs) ++ '}' :: rest)))
                = some (v, ',' :: ' ' :: (printFields ((k2, v2) :: fs) ++ '}' :: rest)) := by
              rw [parseValue_cons_ws f (by decide : jsonWs ' ' = true)]
              exact iha v _ hvlen (digitStart_cons_false (by decide) _)
            have hskip4 : skipWs (',' :: ' '
                  :: (printFields ((k2, v2) :: fs) ++ '}' :: rest))
                = ',' :: (' ' :: (printFields ((k2, v2) :: fs) ++ '}' :: rest)) :=
              skipWs_cons_of_neg (by decide)
            obtain ⟨t2, hpf⟩ := printFields_head k2 v2 fs
            have hskip5 : skipWs (' ' :: (printFields ((k2, v2) :: fs) ++ '}' :: rest))
                = printFields ((k2, v2) :: fs) ++ '}' :: rest := by
              rw [skipWs_cons_of_ws (by decide : jsonWs ' ' = true), hpf,
                List.cons_append, skipWs_cons_of_neg (by decide : jsonWs '"' = false),
                ← List.cons_append, ← hpf]
            have hmem : parseMembers f (printFields ((k2, v2) :: fs) ++ '}' :: rest)
                = some ((k2, v2) :: fs, rest) := by
              refine ihc k2 v2 fs rest ?_
              simp only [List.length_cons, List.length_append,
                List.length_singleton] at hlen
              omega
            simp [hskip3, hval, hskip4, hskip5, hmem]

/-- `json.loads` inverts `json.dumps`: the serialized form of any value
decodes to that value. -/
theorem jsonParse_jsonDumps (v : Json) : jsonParse (jsonDumps v) = some v := by
  unfold jsonParse
  have hdata : (jsonDumps v).data = printJson v := rfl
  rw [hdata]
  have h := (parse_print ((printJson v).length + 1)).1 v [] (by omega) rfl
  rw [List.append_nil] at h
  rw [h]
  rfl

/-! ## Claims -/

/-- C1: for every completed `decapod validate` subprocess run, `run_validate`
returns normally (no exception) a fixed-shape envelope whose keys are exactly
`envelope_version = "1.0.0"`, `cmd = "validate"`, `exit_code` equal to the
subprocess exit code, `stdout`/`stderr` the decoded captured streams, and
`status` equal to `"ok"` exactly when the exit code is zero and `"error"`
otherwise — in particular for exit codes 0, 1 and 127. -/
theorem run_validate_envelope (proc : ProcResult) :
    ∃ env, run_validate (.completed proc) = .ok env
      ∧ env.envelope_version = "1.0.0"
      ∧ env.cmd = "validate"
      ∧ env.exit_code = proc.returncode
      ∧ env.stdout = proc.stdout
      ∧ env.stderr = proc.stderr
      ∧ (env.status = "ok" ↔ proc.returncode = 0)
      ∧ (env.status = "ok" ∨ env.status = "error") := by
  by_cases h : proc.returncode = 0 <;>
    exact ⟨_, rfl, rfl, rfl, rfl, rfl, rfl, by simp [run_validate, h], by simp [run_validate, h]⟩

/-- C2: whenever the `decapod rpc --stdin` subprocess exits non-zero,
`run_rpc` raises the invocation error (Python `RuntimeError`, the spec's
`RpcInvocationError`) whose message is exactly the decoded, trimmed stderr
text of the subprocess. -/
theorem run_rpc_nonzero_exit (op : String) (params : Option (List (String × Json)))
    (request_id : Option String) (r : Nat) (spawn : String → SpawnResult)
    (proc : ProcResult)
    (hspawn : spawn (requestJson op params request_id r) = .completed proc)
    (hcode : proc.returncode ≠ 0) :
    run_rpc op params request_id r spawn = .error (.runtimeError (pyStrip proc.stderr)) := by
  simp [run_rpc, hspawn, hcode]

/-- Witness for C2: exit code 1 with `" boom\n"` on stderr raises the
invocation error with message exactly `"boom"`. -/
theorem run_rpc_nonzero_exit_witness :
    run_rpc "ping" none (some "rid") 0 (fun _ => .completed ⟨1, "", " boom\n"⟩)
      = .error (.runtimeError "boom") := by
  have h := run_rpc_nonzero_exit "ping" none (some "rid") 0
    (fun _ => .completed ⟨1, "", " boom\n"⟩) ⟨1, "", " boom\n"⟩ rfl (by decide)
  exact h.trans (by rfl)

/-- Counterexample to C3 as stated: a subprocess reply `{"success": "false"}`
(exit 0) yields a response whose `success` is the boolean `true`, not the
reply's `"success"` field (the string `"false"`): `run_rpc` coerces the field
with `bool(...)` rather than echoing it. -/
theorem run_rpc_success_not_echoed :
    ∃ resp, run_rpc "ping" none (some "rid") 0
        (fun _ => .completed ⟨0, "\x7b\"success\": \"false\"\x7d", ""⟩) = .ok resp
      ∧ resp.raw.getField "success" = some (.str "false")
      ∧ resp.success = true
      ∧ Json.bool resp.success ≠ .str "false" :=
  ⟨_, rfl, rfl, rfl, fun h => Json.noConfusion h⟩

/-- C3 (amended): on exit 0 with stdout decoding to a JSON object `R`,
`run_rpc` returns a response whose `raw` is `R`, whose `id` is `R`'s `"id"`
field if present and otherwise the request's id, and whose `success` is the
Python truthiness (`bool(...)`) of `R`'s `"success"` field if present —
equal to the field whenever that field is a boolean — and `false` otherwise. -/
theorem run_rpc_reply_fields (op : String) (params : Option (List (String × Json)))
    (request_id : Option String) (r : Nat) (spawn : String → SpawnResult)
    (proc : ProcResult) (fs : List (String × Json))
    (hspawn : spawn (requestJson op params request_id r) = .completed proc)
    (hcode : proc.returncode = 0)
    (hparse : jsonParse proc.stdout = some (.obj fs)) :
    run_rpc op params request_id r spawn
      = .ok { id := (fs.lookup "id").getD (.str (pyOrStr request_id (uuid4 r))),
              success := ((fs.lookup "success").getD (.bool false)).truthy,
              raw := .obj fs } := by
  simp [run_rpc, hspawn, hcode, hparse, Json.getField]

/-- Witness for C3 (amended), also the claim's own example: a subprocess
that exits 0 and prints `{"success": true}` yields `success == true` and
`id` equal to the request's id. -/
theorem run_rpc_reply_fields_witness :
    run_rpc "ping" none (some "rid") 0
        (fun _ => .completed ⟨0, "\x7b\"success\": true\x7d", ""⟩)
      = .ok { id := .str "rid", success := true,
              raw := .obj [("success", .bool true)] } := by
  have h := run_rpc_reply_fields "ping" none (some "rid") 0
    (fun _ => .completed ⟨0, "\x7b\"success\": true\x7d", ""⟩) ⟨0, "\x7b\"success\": true\x7d", ""⟩
    [("success", .bool true)] rfl rfl (by rfl)
  exact h.trans (by rfl)

/-- Counterexample to C4 as stated: a subprocess that exits 0 with stdout
`"not json"` makes `run_rpc` raise a JSON parse error to the caller — the
`json.loads` failure is not swallowed. -/
theorem run_rpc_raises_parse_error :
    run_rpc "ping" none (some "rid") 0 (fun _ => .completed ⟨0, "not json", ""⟩)
      = .error (.jsonDecodeError "not json") := rfl

/-- C4 (amended): `run_rpc` gives JSON-decode failures of the subprocess
reply no dedicated handling: when the subprocess exits 0 but stdout is not
valid JSON, the generic parse error (`json.JSONDecodeError`) propagates to
the caller. -/
theorem run_rpc_parse_error (op : String) (params : Option (List (String × Json)))
    (request_id : Option String) (r : Nat) (spawn : String → SpawnResult)
    (proc : ProcResult)
    (hspawn : spawn (requestJson op params request_id r) = .completed proc)
    (hcode : proc.returncode = 0)
    (hparse : jsonParse proc.stdout = none) :
    run_rpc op params request_id r spawn = .error (.jsonDecodeError proc.stdout) := by
  simp [run_rpc, hspawn, hcode, hparse]

/-- Witness for C4 (amended). -/
theorem run_rpc_parse_error_witness :
    run_rpc "x" none (some "i") 0 (fun _ => .completed ⟨0, "also not json", ""⟩)
      = .error (.jsonDecodeError "also not json") :=
  run_rpc_parse_error "x" none (some "i") 0
    (fun _ => .completed ⟨0, "also not json", ""⟩) ⟨0, "also not json", ""⟩ rfl rfl rfl

/-- C5: a subprocess launch failure surfaces from both `run_rpc` and
`run_validate` as the fatal `OSError`, an error kind distinct from the
non-zero-exit invocation error and from a `status = "error"` envelope
(`run_validate` returns no envelope at all in that case). -/
theorem spawn_failure_fatal (op : String) (params : Option (List (String × Json)))
    (request_id : Option String) (r : Nat) (msg : String)
    (spawn : String → SpawnResult)
    (hspawn : spawn (requestJson op params request_id r) = .failure msg) :
    run_rpc op params request_id r spawn = .error (.osError msg)
    ∧ run_validate (.failure msg) = .error (.osError msg)
    ∧ (∀ m, PyError.osError msg ≠ .runtimeError m)
    ∧ (∀ env, run_validate (.failure msg) ≠ .ok env) := by
  refine ⟨by simp [run_rpc, hspawn], rfl, fun m h => PyError.noConfusion h,
    fun env h => Except.noConfusion h⟩

/-- Witness for C5. -/
theorem spawn_failure_fatal_witness :
    run_rpc "ping" none (some "rid") 0 (fun _ => .failure "decapod: not found")
      = .error (.osError "decapod: not found")
    ∧ run_validate (.failure "decapod: not found")
      = .error (.osError "decapod: not found") := by
  have h := spawn_failure_fatal "ping" none (some "rid") 0 "decapod: not found"
    (fun _ => .failure "decapod: not found") rfl
  exact ⟨h.1, h.2.1⟩

/-- C6: with `request_id` omitted, the id placed in the request envelope is
the freshly generated `str(uuid.uuid4())`, which is a syntactically valid
version-4 UUID for every random draw; and when the subprocess reply (exit 0,
JSON object) carries no `"id"` field, that generated id is echoed back as
the response's `id`. -/
theorem run_rpc_generated_uuid (op : String) (params : Option (List (String × Json)))
    (r : Nat) (spawn : String → SpawnResult) (proc : ProcResult)
    (fs : List (String × Json))
    (hspawn : spawn (requestJson op params none r) = .completed proc)
    (hcode : proc.returncode = 0)
    (hparse : jsonParse proc.stdout = some (.obj fs))
    (hnoid : fs.lookup "id" = none) :
    isUuidV4 (uuid4 r) = true
    ∧ rpcPayload op params none r
        = .obj [("id", .str (uuid4 r)), ("op", .str op),
                ("params", .obj (paramsOrEmpty params))]
    ∧ run_rpc op params none r spawn
        = .ok { id := .str (uuid4 r),
                success := ((fs.lookup "success").getD (.bool false)).truthy,
                raw := .obj fs } := by
  refine ⟨isUuidV4_uuid4 r, rfl, ?_⟩
  simp [run_rpc, hspawn, hcode, hparse, Json.getField, hnoid, pyOrStr]

/-- Witness for C6: with random draw 0 and a reply `{}`, the envelope id and
the echoed response id are the concrete valid UUID
`00000000-0000-4000-8000-000000000000`. -/
theorem run_rpc_generated_uuid_witness :
    isUuidV4 "00000000-0000-4000-8000-000000000000" = true
    ∧ run_rpc "ping" none none 0 (fun _ => .completed ⟨0, "{}", ""⟩)
        = .ok { id := .str "00000000-0000-4000-8000-000000000000",
                success := false, raw := .obj [] } := by
  have h := run_rpc_generated_uuid "ping" none 0
    (fun _ => .completed ⟨0, "{}", ""⟩) ⟨0, "{}", ""⟩ [] rfl rfl (by rfl) rfl
  constructor
  · rw [show ("00000000-0000-4000-8000-000000000000" : String) = uuid4 0 from rfl]
    exact h.1
  · exact h.2.2.trans (by rfl)

/-- C7: the request JSON that `run_rpc` serializes and writes to the
subprocess's stdin round-trips: `json.loads` of it recovers the payload,
whose `"op"` is the given op and whose `"params"` is the given params
mapping (the empty mapping when omitted). -/
theorem request_json_roundtrip (op : String) (params : Option (List (String × Json)))
    (request_id : Option String) (r : Nat) :
    jsonParse (requestJson op params request_id r)
      = some (rpcPayload op params request_id r)
    ∧ (rpcPayload op params request_id r).getField "op" = some (.str op)
    ∧ (rpcPayload op params request_id r).getField "params"
        = some (.obj (paramsOrEmpty params)) :=
  ⟨jsonParse_jsonDumps _, rfl, rfl⟩

/-- C8: invoked with `--fixture` naming a readable file whose JSON text
decodes to an object whose `"status"` is `"ok"`, the demo does not invoke
the subprocess, prints a JSON object carrying `"status": "ok"` and
`"demo": "python"`, and returns exit code 0. -/
theorem demo_fixture_ok (content : String) (fs : List (String × Json))
    (spawn : SpawnResult)
    (hparse : jsonParse content = some (.obj fs))
    (hstatus : fs.lookup "status" = some (.str "ok")) :
    demoMain (some content) spawn
      = .ok { printed := .obj [("demo", .str "python"), ("status", .str "ok")],
              exitCode := 0, invokedSubprocess := false } := by
  simp [demoMain, hparse, Json.getField, hstatus]

/-- Witness for C8 at the fixture text `{"status": "ok"}`. -/
theorem demo_fixture_ok_witness :
    demoMain (some "\x7b\"status\": \"ok\"\x7d") (.failure "unused")
      = .ok { printed := .obj [("demo", .str "python"), ("status", .str "ok")],
              exitCode := 0, invokedSubprocess := false } :=
  demo_fixture_ok "\x7b\"status\": \"ok\"\x7d" [("status", .str "ok")] (.failure "unused")
    (by rfl) rfl

/-- C9: when the subprocess reply (exit 0, JSON object) carries a
`"success"` field of any JSON type, the response's `success` is the boolean
Python truthiness of that field. -/
theorem run_rpc_success_truthiness (op : String) (params : Option (List (String × Json)))
    (request_id : Option String) (r : Nat) (spawn : String → SpawnResult)
    (proc : ProcResult) (fs : List (String × Json)) (v : Json)
    (hspawn : spawn (requestJson op params request_id r) = .completed proc)
    (hcode : proc.returncode = 0)
    (hparse : jsonParse proc.stdout = some (.obj fs))
    (hsucc : fs.lookup "success" = some v) :
    run_rpc op params request_id r spawn
      = .ok { id := (fs.lookup "id").getD (.str (pyOrStr request_id (uuid4 r))),
              success := v.truthy,
              raw := .obj fs } := by
  simp [run_rpc, hspawn, hcode, hparse, Json.getField, hsucc]

/-- Witness for C9: `{"success": "false"}` coerces to `true` (non-empty
string) and `{"success": 0}` coerces to `false`. -/
theorem run_rpc_success_truthiness_witness :
    run_rpc "op1" none (some "a") 0
        (fun _ => .completed ⟨0, "\x7b\"success\": \"false\"\x7d", ""⟩)
      = .ok { id := .str "a", success := true,
              raw := .obj [("success", .str "false")] }
    ∧ run_rpc "op1" none (some "a") 0
        (fun _ => .completed ⟨0, "\x7b\"success\": 0\x7d", ""⟩)
      = .ok { id := .str "a", success := false,
              raw := .obj [("success", .num 0)] } := by
  constructor
  · have h := run_rpc_success_truthiness "op1" none (some "a") 0
      (fun _ => .completed ⟨0, "\x7b\"success\": \"false\"\x7d", ""⟩)
      ⟨0, "\x7b\"success\": \"false\"\x7d", ""⟩ [("success", .str "false")] (.str "false")
      rfl rfl (by rfl) rfl
    exact h.trans (by rfl)
  · have h := run_rpc_success_truthiness "op1" none (some "a") 0
      (fun _ => .completed ⟨0, "\x7b\"success\": 0\x7d", ""⟩)
      ⟨0, "\x7b\"success\": 0\x7d", ""⟩ [("success", .num 0)] (.num 0)
      rfl rfl (by rfl) rfl
    exact h.trans (by rfl)

/-- C10: `run_rpc`'s defaulting is by Python truthiness, not by omission:
`request_id = ""` yields the freshly generated UUID (a non-empty string) as
the envelope id, and `params = {}` produces a request — and an entire call —
identical to omitting `params`. -/
theorem run_rpc_truthiness_defaults (op : String) (params : Option (List (String × Json)))
    (request_id : Option String) (r : Nat) (spawn : String → SpawnResult) :
    rpcPayload op params (some "") r = rpcPayload op params none r
    ∧ (rpcPayload op params none r).getField "id" = some (.str (uuid4 r))
    ∧ uuid4 r ≠ ""
    ∧ requestJson op (some []) request_id r = requestJson op none request_id r
    ∧ run_rpc op (some []) request_id r spawn = run_rpc op none request_id r spawn := by
  refine ⟨rfl, rfl, ?_, rfl, rfl⟩
  intro h
  have := congrArg String.data h
  simp [uuid4] at this

end Decapod
